import Mathlib

/-!
Shallow embedding of the `ont_data_tools` statistics scripts:

* `src/stats/calculate_summary_stats_v3_under_100kb.py` — the length-bucket
  ("coverage") variant: `process_single_file`, `process_aggregated_files`,
  `extract_flowcell_id`, `transform_file_field` and the suffix-append logic
  of `main`.
* `src/calculate_summary_stats_rna.py` — the quality-bin ("reads in
  millions") variant: `process_rna_file`, `process_aggregated_rna_files`
  and the directory-mode loop of `main`.

Modelling conventions:

* A data line is modelled by its whitespace-separated tokens
  (`line.strip().split()`).  The Python check `'filename' in line and
  'read_id' in line` tests substring containment on the raw line; since both
  needles are whitespace-free, a needle occurs in the raw line iff it occurs
  inside one of the whitespace-separated tokens, so the token-level model is
  equivalent.
* Python `int(...)` is modelled by `parsePyInt` (optional sign followed by
  digits); Python machine-level details (underscore separators, surrounding
  whitespace) do not occur in these tabular inputs.
* The scripts' divisions and 2-decimal roundings (`Gb`, `coverage`, the
  `20kb+`..`100kb+` columns, the `*_reads_M` columns) are deterministic
  functions of the integer sums/counts kept here and of the constant
  divisors, so results record the exact integer quantities; `target =
  total_bases / 2.0` with an integer cumulative sum satisfies
  `cumulative >= target` iff `2 * cumulative >= total_bases`.
* File opening / gzip / pandas parsing are the I/O boundary: a stream is
  given as its header tokens plus data rows (v3 variant), or as an already
  parsed dataframe (RNA variant, where `pd.read_csv` does the parsing); an
  unreadable/unparsable input is `none`.
-/

namespace OntStats

/-- One data line, as its whitespace-separated tokens (`line.strip().split()`). -/
abbrev Row := List String

/-- Characters produced by Python `s.split(sep)` for a one-character
separator: split at every occurrence, keeping empty fields. -/
def splitCharsAux (sep : Char) : List Char → List Char → List (List Char)
  | [], acc => [acc.reverse]
  | c :: cs, acc =>
    if c = sep then acc.reverse :: splitCharsAux sep cs []
    else splitCharsAux sep cs (c :: acc)

/-- Python `s.split(sep)` for a one-character separator. -/
def pySplit (sep : Char) (s : String) : List String :=
  (splitCharsAux sep s.data []).map String.mk

/-- Python `",".join(l)`. -/
def joinComma : List String → String
  | [] => ""
  | [s] => s
  | s :: t :: rest => s ++ "," ++ joinComma (t :: rest)

/-- Does the character-list `needle` occur at the head of `hay`? -/
def matchesAt : List Char → List Char → Bool
  | [], _ => true
  | _ :: _, [] => false
  | c :: cs, d :: ds => c = d && matchesAt cs ds

/-- Does the character-list `needle` occur anywhere inside `hay`?
Models Python `needle in hay` for strings. -/
def containsSubChars (needle : List Char) : List Char → Bool
  | [] => needle.isEmpty
  | d :: ds => matchesAt needle (d :: ds) || containsSubChars needle ds

/-- Python substring containment `needle in hay`. -/
def containsSub (needle hay : String) : Bool :=
  containsSubChars needle.data hay.data

/-- Value of an all-digit character list. -/
def digitsVal (cs : List Char) : ℕ :=
  cs.foldl (fun n c => 10 * n + (c.toNat - 48)) 0

/-- Models Python `int(s)` on the whitespace-free tokens that occur here: an
optional sign followed by one or more digits parses, anything else raises
`ValueError` (here: `none`). -/
def parsePyInt (s : String) : Option ℤ :=
  match s.data with
  | [] => none
  | '-' :: rest =>
    if rest.isEmpty then none
    else if rest.all Char.isDigit then some (-(digitsVal rest : ℤ)) else none
  | '+' :: rest =>
    if rest.isEmpty then none
    else if rest.all Char.isDigit then some ((digitsVal rest : ℤ)) else none
  | cs =>
    if cs.all Char.isDigit then some ((digitsVal cs : ℤ)) else none

/-- Python `list.index(x)` returning the first index, as an `Option`
(Python raises `ValueError` when absent; the scripts catch that). -/
def pyIndex (s : String) : List String → Option ℕ
  | [] => none
  | t :: ts => if t = s then some 0 else (pyIndex s ts).map (· + 1)

/-- One v3 input stream: the file name, the header tokens
(`f.readline().strip().split()`) and the data rows. -/
structure InputFile where
  name : String
  header : List String
  rows : List Row
deriving DecidableEq

/-- `extract_flowcell_id(header, parts)` of the v3 script: locate the
`filename_pod5` column (falling back to `filename`), and return the first
`_`-delimited token of that field; `""` when no such column exists or the
row is too short. -/
def extract_flowcell_id (header : List String) (parts : Row) : String :=
  match pyIndex "filename_pod5" header with
  | some idx =>
    if idx < parts.length then ((pySplit '_' (parts.getD idx "")).headD "") else ""
  | none =>
    match pyIndex "filename" header with
    | some idx =>
      if idx < parts.length then ((pySplit '_' (parts.getD idx "")).headD "") else ""
    | none => ""

/-- The v3 scripts' re-embedded-header test on a data line:
`'filename' in line and 'read_id' in line`. -/
def isEmbeddedHeader (parts : Row) : Bool :=
  parts.any (fun t => containsSub "filename" t) &&
    parts.any (fun t => containsSub "read_id" t)

/-- Mutable state of the per-file loop of `process_single_file`. -/
structure SingleState where
  read_lengths : List ℤ
  bases : ℤ
  flowcell_id : Option String
deriving DecidableEq

/-- One iteration of the row loop of `process_single_file` (lines 87-104). -/
def singleStep (header : List String) (length_index : ℕ)
    (st : SingleState) (parts : Row) : SingleState :=
  if isEmbeddedHeader parts then st
  else if parts.length ≤ length_index then st
  else
    let st1 := if st.flowcell_id.isNone
      then { st with flowcell_id := some (extract_flowcell_id header parts) }
      else st
    match parsePyInt (parts.getD length_index "") with
    | none => st1
    | some n =>
      { st1 with read_lengths := st1.read_lengths ++ [n], bases := st1.bases + n }

/-- Python `read_lengths.sort(reverse=True)`: sort descending. -/
def sortDesc (l : List ℤ) : List ℤ := l.insertionSort (· ≥ ·)

/-- `sum(i for i in read_lengths if i >= t)`. -/
def sumGE (l : List ℤ) (t : ℤ) : ℤ := (l.filter (fun i => t ≤ i)).sum

/-- `len([i for i in read_lengths if i >= t])`. -/
def countGE (l : List ℤ) (t : ℤ) : ℕ := (l.filter (fun i => t ≤ i)).length

/-- The N50 walk shared by all four processing paths: run through the
descending-sorted lengths accumulating `cumulative`, and return the first
value at which `cumulative >= total_bases / 2.0` (equivalently
`2 * cumulative >= total_bases`); `0` when the walk never crosses. -/
def n50Go (totalBases cum : ℤ) : List ℤ → ℤ
  | [] => 0
  | x :: xs => if totalBases ≤ 2 * (cum + x) then x else n50Go totalBases (cum + x) xs

/-- Result of the v3 script, with the exact integer quantities underlying the
printed columns: `Gb = round(totalBases/1e9, 2)`,
`coverage = round(totalBases/genome, 2)`, and each `Nkb+` column is
`round(sumNkb/genome, 2)`. -/
structure V3Result where
  file : String
  flowcell_id : String
  read_N50 : ℤ
  totalBases : ℤ
  sum20kb : ℤ
  sum40kb : ℤ
  sum60kb : ℤ
  sum80kb : ℤ
  sum100kb : ℤ
  whales : ℕ
deriving DecidableEq

/-- Finalization of `process_single_file` (lines 108-144): `None` when no
read was accepted, otherwise the per-file statistics; `whales` counts reads
of length at least `1000000` in this code path. -/
def finalizeSingle (name : String) (st : SingleState) : Option V3Result :=
  if st.read_lengths = [] then none
  else
    some
      { file := name
        flowcell_id := st.flowcell_id.getD ""
        read_N50 := n50Go st.bases 0 (sortDesc st.read_lengths)
        totalBases := st.bases
        sum20kb := sumGE (sortDesc st.read_lengths) 20000
        sum40kb := sumGE (sortDesc st.read_lengths) 40000
        sum60kb := sumGE (sortDesc st.read_lengths) 60000
        sum80kb := sumGE (sortDesc st.read_lengths) 80000
        sum100kb := sumGE (sortDesc st.read_lengths) 100000
        whales := countGE (sortDesc st.read_lengths) 1000000 }

/-- `process_single_file` of the v3 script, on an already opened stream:
fails (`None`) when `sequence_length_template` is absent from the header,
otherwise folds the row loop and finalizes. -/
def process_single_file (f : InputFile) : Option V3Result :=
  match pyIndex "sequence_length_template" f.header with
  | none => none
  | some idx => finalizeSingle f.name (f.rows.foldl (singleStep f.header idx) ⟨[], 0, none⟩)

/-- Code-point lexicographic string comparison on character lists, the
order Python uses to compare strings (`Char` comparison in Lean is by code
point as well); a proper initial segment precedes its extensions. -/
def lexLE : List Char → List Char → Bool
  | [], _ => true
  | _ :: _, [] => false
  | c :: cs, d :: ds => if c = d then lexLE cs ds else decide (c < d)

/-- Python string `<=`. -/
def StrLE (a b : String) : Prop := lexLE a.data b.data = true

instance : DecidableRel StrLE := fun a b => by unfold StrLE; infer_instance

/-- Python `sorted(...)` over strings. -/
def sortStrings (l : List String) : List String := l.insertionSort StrLE

/-- Python `set.add`: the set is modelled as its insertion list with
membership-checked deduplication (the set's own iteration order is never
observable in the scripts' output, which sorts it first). -/
def setAdd (l : List String) (x : String) : List String :=
  if x ∈ l then l else l ++ [x]

/-- Mutable state of `process_aggregated_files`. -/
structure AggState where
  read_lengths : List ℤ
  bases : ℤ
  flowcell_ids : List String
  file_names : List String
deriving DecidableEq

/-- One iteration of the row loop of `process_aggregated_files`
(lines 168-186): unlike the single-file loop, every row that reaches the
length column has its flowcell id extracted and, when nonempty, added to the
set. -/
def aggStep (header : List String) (length_index : ℕ)
    (st : AggState) (parts : Row) : AggState :=
  if isEmbeddedHeader parts then st
  else if parts.length ≤ length_index then st
  else
    let fid := extract_flowcell_id header parts
    let st1 := if fid ≠ "" then { st with flowcell_ids := setAdd st.flowcell_ids fid } else st
    match parsePyInt (parts.getD length_index "") with
    | none => st1
    | some n =>
      { st1 with read_lengths := st1.read_lengths ++ [n], bases := st1.bases + n }

/-- Processing of one file inside `process_aggregated_files` (lines 152-188):
the file name is appended BEFORE the header check, so a file whose header
lacks the required column still contributes its name; its rows are skipped
via `continue`. -/
def aggFile (st : AggState) (f : InputFile) : AggState :=
  let st0 := { st with file_names := st.file_names ++ [f.name] }
  match pyIndex "sequence_length_template" f.header with
  | none => st0
  | some idx => f.rows.foldl (aggStep f.header idx) st0

/-- The accumulated state of `process_aggregated_files` over a file list. -/
def aggState (files : List InputFile) : AggState :=
  files.foldl aggFile ⟨[], 0, ∅, []⟩

/-- Finalization of `process_aggregated_files` (lines 190-226): `None` when
no read was accepted; the flowcell ids are rendered comma-joined in sorted
order; `whales` counts reads of length at least `100000` in this code path
(line 212 of the source — not `1000000` as in the single-file path). -/
def finalizeAgg (st : AggState) : Option V3Result :=
  if st.read_lengths = [] then none
  else
    some
      { file := joinComma st.file_names
        flowcell_id := joinComma (sortStrings st.flowcell_ids)
        read_N50 := n50Go st.bases 0 (sortDesc st.read_lengths)
        totalBases := st.bases
        sum20kb := sumGE (sortDesc st.read_lengths) 20000
        sum40kb := sumGE (sortDesc st.read_lengths) 40000
        sum60kb := sumGE (sortDesc st.read_lengths) 60000
        sum80kb := sumGE (sortDesc st.read_lengths) 80000
        sum100kb := sumGE (sortDesc st.read_lengths) 100000
        whales := countGE (sortDesc st.read_lengths) 100000 }

/-- `process_aggregated_files` of the v3 script, on already opened streams. -/
def process_aggregated_files (files : List InputFile) : Option V3Result :=
  finalizeAgg (aggState files)

/-- The per-component shortening of `transform_file_field`:
`parts = item.split("/"); parts[1] if len(parts) >= 2 else item`. -/
def shortenComponent (item : String) : String :=
  let parts := pySplit '/' item
  if 2 ≤ parts.length then parts.getD 1 "" else item

/-- `transform_file_field(file_field, shortname_option)`, identical in both
scripts: no-op unless the option is `"yes"`; with a comma-separated list each
component is shortened independently; otherwise the single path is
shortened. -/
def transform_file_field (file_field : String) (shortname_option : String) : String :=
  if shortname_option ≠ "yes" then file_field
  else if file_field.data.contains ',' then
    joinComma ((pySplit ',' file_field).map shortenComponent)
  else shortenComponent file_field

/-- The suffix-append step of both scripts' `main`:
`if append_str: field = field + "_" + append_str`. -/
def appendSuffix (field append_str : String) : String :=
  if append_str = "" then field else field ++ "_" ++ append_str

/-- One row of a parsed RNA dataframe, with the two columns the script
reads after its `drop(columns=..., errors='ignore')`. -/
structure RnaRow where
  mean_qscore_template : ℚ
  sequence_length_template : ℤ
deriving DecidableEq

/-- A dataframe produced by `pd.read_csv(f, sep=r'\s+')`: the parsed rows
plus presence flags for the two columns the script accesses (accessing an
absent column raises `KeyError`). -/
structure RnaDf where
  hasQscore : Bool
  hasLength : Bool
  rows : List RnaRow
deriving DecidableEq

/-- Result of `process_rna_file` / `process_aggregated_rna_files`, with the
exact integer quantities underlying the printed columns:
`total_Gbp = round(totalBases/1e9, 2)`, `total_reads_M = total_reads/1e6`,
`qN_reads_M = round(count_qN/1e6, 2)`. -/
structure RnaResult where
  sample : String
  totalBases : ℤ
  n50 : ℤ
  total_reads : ℕ
  count_q5 : ℕ
  count_q10 : ℕ
  count_q15 : ℕ
  count_q20 : ℕ
  count_q25 : ℕ
deriving DecidableEq

/-- Observable outcome of `process_rna_file`: `failed` models `return None`
after an open/read error; `keyError col` models the UNCAUGHT `KeyError`
raised by `df[col]` when the column is absent (only `pd.read_csv` sits in a
`try`/`except`), which propagates out of the function. -/
inductive RnaOutcome where
  | failed : RnaOutcome
  | keyError : String → RnaOutcome
  | ok : RnaResult → RnaOutcome
deriving DecidableEq

/-- `len(df[df['mean_qscore_template'] >= t])`. -/
def countQ (rows : List RnaRow) (t : ℚ) : ℕ :=
  (rows.filter (fun r => t ≤ r.mean_qscore_template)).length

/-- `process_rna_file` of the RNA script, on an already opened stream
(`none` = `pd.read_csv` failed).  `df['mean_qscore_template']` is accessed
first (line 83), then `df['sequence_length_template']` (line 95); an absent
column raises `KeyError` at that point and nothing is returned. -/
def process_rna_file (name : String) (df? : Option RnaDf) : RnaOutcome :=
  match df? with
  | none => .failed
  | some df =>
    if !df.hasQscore then .keyError "mean_qscore_template"
    else if !df.hasLength then .keyError "sequence_length_template"
    else
      .ok
        { sample := name
          totalBases := (df.rows.map (fun r => r.sequence_length_template)).sum
          n50 := n50Go ((df.rows.map (fun r => r.sequence_length_template)).sum) 0
            (sortDesc (df.rows.map (fun r => r.sequence_length_template)))
          total_reads := df.rows.length
          count_q5 := countQ df.rows 5
          count_q10 := countQ df.rows 10
          count_q15 := countQ df.rows 15
          count_q20 := countQ df.rows 20
          count_q25 := countQ df.rows 25 }

/-- The directory-mode loop of the RNA script's `main` (lines 259-262):
each file is run through `process_rna_file`; a `None` return is dropped; an
uncaught `KeyError` propagates and aborts the whole loop, losing every
result. -/
def rnaDirResults : List (String × Option RnaDf) → Except String (List RnaResult)
  | [] => .ok []
  | (n, d) :: rest =>
    match process_rna_file n d with
    | .keyError c => .error c
    | .failed => rnaDirResults rest
    | .ok r =>
      match rnaDirResults rest with
      | .error c => .error c
      | .ok rs => .ok (r :: rs)

/-- Mutable state of `process_aggregated_rna_files`. -/
structure RnaAggState where
  total_reads : ℕ
  totalBases : ℤ
  count_q5 : ℕ
  count_q10 : ℕ
  count_q15 : ℕ
  count_q20 : ℕ
  count_q25 : ℕ
  read_lengths : List ℤ
deriving DecidableEq

/-- One file of `process_aggregated_rna_files` (lines 141-178): an
open/read failure is skipped via `continue`; an absent column raises an
uncaught `KeyError` (qscore first, line 163; then length, line 175). -/
def rnaAggFile (st : RnaAggState) (file : String × Option RnaDf) : Except String RnaAggState :=
  match file.2 with
  | none => .ok st
  | some df =>
    if !df.hasQscore then .error "mean_qscore_template"
    else if !df.hasLength then .error "sequence_length_template"
    else
      .ok
        { total_reads := st.total_reads + df.rows.length
          totalBases := st.totalBases + (df.rows.map (fun r => r.sequence_length_template)).sum
          count_q5 := st.count_q5 + countQ df.rows 5
          count_q10 := st.count_q10 + countQ df.rows 10
          count_q15 := st.count_q15 + countQ df.rows 15
          count_q20 := st.count_q20 + countQ df.rows 20
          count_q25 := st.count_q25 + countQ df.rows 25
          read_lengths := st.read_lengths ++ df.rows.map (fun r => r.sequence_length_template) }

/-- `process_aggregated_rna_files` of the RNA script: folds the per-file
step (a `KeyError` aborts), guards `total_reads == 0` with `return None`
(modelled `.ok none`), and otherwise finalizes; the `Sample` field joins
ALL input file names (line 201), readable or not. -/
def process_aggregated_rna_files (files : List (String × Option RnaDf)) :
    Except String (Option RnaResult) :=
  match files.foldlM rnaAggFile ⟨0, 0, 0, 0, 0, 0, 0, []⟩ with
  | .error c => .error c
  | .ok st =>
    if st.total_reads = 0 then .ok none
    else
      .ok (some
        { sample := joinComma (files.map (fun p => p.1))
          totalBases := st.totalBases
          n50 := n50Go st.totalBases 0 (sortDesc st.read_lengths)
          total_reads := st.total_reads
          count_q5 := st.count_q5
          count_q10 := st.count_q10
          count_q15 := st.count_q15
          count_q20 := st.count_q20
          count_q25 := st.count_q25 })

/-- The length contribution of one data line: `[n]` when the line passes
the embedded-header and field-count checks and its length field parses,
`[]` otherwise. -/
def rowLengthContrib (length_index : ℕ) (parts : Row) : List ℤ :=
  if isEmbeddedHeader parts then []
  else if parts.length ≤ length_index then []
  else
    match parsePyInt (parts.getD length_index "") with
    | none => []
    | some n => [n]

/-- The flowcell-id candidates a data line offers to the aggregated set:
one nonempty extracted id when the line passes the embedded-header and
field-count checks, nothing otherwise. -/
def rowIdSeq (header : List String) (length_index : ℕ) (parts : Row) : List String :=
  if isEmbeddedHeader parts then []
  else if parts.length ≤ length_index then []
  else
    let fid := extract_flowcell_id header parts
    if fid = "" then [] else [fid]

/-- All accepted lengths of one input file, in row order. -/
def fileLengths (f : InputFile) : List ℤ :=
  match pyIndex "sequence_length_template" f.header with
  | none => []
  | some idx => (f.rows.map (rowLengthContrib idx)).flatten

/-- All flowcell-id candidates of one input file, in row order. -/
def fileIdSeq (f : InputFile) : List String :=
  match pyIndex "sequence_length_template" f.header with
  | none => []
  | some idx => (f.rows.map (rowIdSeq f.header idx)).flatten

/-- Running sum of the first `k` entries. -/
def partialSum (s : List ℤ) (k : ℕ) : ℤ := (s.take k).sum

/-- Agreement of two optional v3 results on every numeric output field
(N50, total bases — hence `Gb` and `coverage` —, the five bucket sums —
hence the five rounded bucket columns —, and the very-long-read count),
leaving only the label strings unconstrained. -/
def numericsAgree : Option V3Result → Option V3Result → Prop
  | none, none => True
  | some a, some b =>
    a.read_N50 = b.read_N50 ∧ a.totalBases = b.totalBases ∧
      a.sum20kb = b.sum20kb ∧ a.sum40kb = b.sum40kb ∧ a.sum60kb = b.sum60kb ∧
      a.sum80kb = b.sum80kb ∧ a.sum100kb = b.sum100kb ∧ a.whales = b.whales
  | _, _ => False

/-- The first data line of a stream that passes the embedded-header and
field-count checks — the only line whose extraction the single-file loop
records. -/
def firstQualifying (length_index : ℕ) (rows : List Row) : Option Row :=
  rows.find? (fun p => !isEmbeddedHeader p && !decide (p.length ≤ length_index))

/-- A data line the v3 row loops silently skip entirely: a re-embedded
header line, a line too short to reach the required column, or a line whose
length field does not parse as an integer. -/
def rowSkipped (length_index : ℕ) (parts : Row) : Bool :=
  isEmbeddedHeader parts || decide (parts.length ≤ length_index) ||
    (parsePyInt (parts.getD length_index "")).isNone

theorem aggStep_eq (header : List String) (idx : ℕ) (st : AggState) (p : Row) :
    aggStep header idx st p =
      { read_lengths := st.read_lengths ++ rowLengthContrib idx p
        bases := st.bases + (rowLengthContrib idx p).sum
        flowcell_ids := (rowIdSeq header idx p).foldl setAdd st.flowcell_ids
        file_names := st.file_names } := by
  unfold aggStep rowLengthContrib rowIdSeq
  by_cases h1 : isEmbeddedHeader p
  · simp [h1]
  by_cases h2 : p.length ≤ idx
  · simp [h1, h2]
  by_cases h3 : extract_flowcell_id header p = "" <;>
    cases hp : parsePyInt (p.getD idx "") <;> simp [h1, h2, h3, hp, setAdd]

theorem foldl_aggStep (header : List String) (idx : ℕ) :
    ∀ (rows : List Row) (st : AggState),
      rows.foldl (aggStep header idx) st =
        { read_lengths := st.read_lengths ++ (rows.map (rowLengthContrib idx)).flatten
          bases := st.bases + ((rows.map (rowLengthContrib idx)).flatten).sum
          flowcell_ids := ((rows.map (rowIdSeq header idx)).flatten).foldl setAdd st.flowcell_ids
          file_names := st.file_names }
  | [], st => by simp
  | p :: rows, st => by
    rw [List.foldl_cons, aggStep_eq, foldl_aggStep header idx rows]
    simp [List.foldl_append, add_assoc]

theorem aggFile_eq (st : AggState) (f : InputFile) :
    aggFile st f =
      { read_lengths := st.read_lengths ++ fileLengths f
        bases := st.bases + (fileLengths f).sum
        flowcell_ids := (fileIdSeq f).foldl setAdd st.flowcell_ids
        file_names := st.file_names ++ [f.name] } := by
  unfold aggFile fileLengths fileIdSeq
  cases h : pyIndex "sequence_length_template" f.header
  · simp [h]
  · simp [h, foldl_aggStep]

theorem foldl_aggFile :
    ∀ (files : List InputFile) (st : AggState),
      files.foldl aggFile st =
        { read_lengths := st.read_lengths ++ (files.map fileLengths).flatten
          bases := st.bases + ((files.map fileLengths).flatten).sum
          flowcell_ids := ((files.map fileIdSeq).flatten).foldl setAdd st.flowcell_ids
          file_names := st.file_names ++ files.map InputFile.name }
  | [], st => by simp
  | f :: files, st => by
    rw [List.foldl_cons, aggFile_eq, foldl_aggFile files]
    simp [List.foldl_append, add_assoc, List.append_assoc]

theorem aggState_eq (files : List InputFile) :
    aggState files =
      { read_lengths := (files.map fileLengths).flatten
        bases := ((files.map fileLengths).flatten).sum
        flowcell_ids := ((files.map fileIdSeq).flatten).foldl setAdd []
        file_names := files.map InputFile.name } := by
  unfold aggState
  rw [foldl_aggFile]
  simp

theorem singleStep_totals (header : List String) (idx : ℕ) (st : SingleState) (p : Row) :
    (singleStep header idx st p).read_lengths = st.read_lengths ++ rowLengthContrib idx p ∧
      (singleStep header idx st p).bases = st.bases + (rowLengthContrib idx p).sum := by
  unfold singleStep rowLengthContrib
  by_cases h1 : isEmbeddedHeader p
  · simp [h1]
  by_cases h2 : p.length ≤ idx
  · simp [h1, h2]
  cases hp : parsePyInt (p.getD idx "") <;>
    by_cases hf : st.flowcell_id.isNone <;> simp [h1, h2, hp, hf]

theorem foldl_singleStep_totals (header : List String) (idx : ℕ) :
    ∀ (rows : List Row) (st : SingleState),
      (rows.foldl (singleStep header idx) st).read_lengths =
          st.read_lengths ++ (rows.map (rowLengthContrib idx)).flatten ∧
        (rows.foldl (singleStep header idx) st).bases =
          st.bases + ((rows.map (rowLengthContrib idx)).flatten).sum
  | [], st => by simp
  | p :: rows, st => by
    rw [List.foldl_cons]
    obtain ⟨ih1, ih2⟩ := foldl_singleStep_totals header idx rows (singleStep header idx st p)
    obtain ⟨h1, h2⟩ := singleStep_totals header idx st p
    rw [ih1, ih2, h1, h2]
    simp [add_assoc]

theorem singleStep_flowcell_some (header : List String) (idx : ℕ) (st : SingleState)
    (p : Row) (x : String) (hx : st.flowcell_id = some x) :
    (singleStep header idx st p).flowcell_id = some x := by
  unfold singleStep
  by_cases h1 : isEmbeddedHeader p
  · simp [h1, hx]
  by_cases h2 : p.length ≤ idx
  · simp [h1, h2, hx]
  cases hp : parsePyInt (p.getD idx "") <;> simp [h1, h2, hp, hx]

theorem foldl_singleStep_flowcell_some (header : List String) (idx : ℕ) :
    ∀ (rows : List Row) (st : SingleState) (x : String), st.flowcell_id = some x →
      (rows.foldl (singleStep header idx) st).flowcell_id = some x
  | [], _, _, hx => hx
  | p :: rows, st, x, hx => by
    rw [List.foldl_cons]
    exact foldl_singleStep_flowcell_some header idx rows _ x
      (singleStep_flowcell_some header idx st p x hx)

theorem foldl_singleStep_flowcell_none (header : List String) (idx : ℕ) :
    ∀ (rows : List Row) (l : List ℤ) (b : ℤ),
      ((rows.foldl (singleStep header idx) ⟨l, b, none⟩).flowcell_id) =
        (firstQualifying idx rows).map (extract_flowcell_id header)
  | [], l, b => rfl
  | p :: rows, l, b => by
    rw [List.foldl_cons]
    unfold firstQualifying
    by_cases h1 : isEmbeddedHeader p
    · rw [List.find?_cons_of_neg _ (by simp [h1])]
      have : singleStep header idx ⟨l, b, none⟩ p = ⟨l, b, none⟩ := by
        unfold singleStep; simp [h1]
      rw [this]
      exact foldl_singleStep_flowcell_none header idx rows l b
    by_cases h2 : p.length ≤ idx
    · rw [List.find?_cons_of_neg _ (by simp [h1, h2])]
      have : singleStep header idx ⟨l, b, none⟩ p = ⟨l, b, none⟩ := by
        unfold singleStep; simp [h1, h2]
      rw [this]
      exact foldl_singleStep_flowcell_none header idx rows l b
    · rw [List.find?_cons_of_pos _ (by simp [h1, h2])]
      have hsome : (singleStep header idx ⟨l, b, none⟩ p).flowcell_id =
          some (extract_flowcell_id header p) := by
        unfold singleStep
        cases hp : parsePyInt (p.getD idx "") <;> simp [h1, h2, hp]
      cases hst : singleStep header idx ⟨l, b, none⟩ p with
      | mk rl bb fc =>
        rw [hst] at hsome
        simp only at hsome
        rw [foldl_singleStep_flowcell_some header idx rows ⟨rl, bb, fc⟩ _ hsome]
        rfl

theorem mem_foldl_setAdd :
    ∀ (xs l : List String) (x : String), x ∈ xs.foldl setAdd l ↔ x ∈ l ∨ x ∈ xs
  | [], l, x => by simp
  | y :: xs, l, x => by
    rw [List.foldl_cons, mem_foldl_setAdd xs]
    unfold setAdd
    by_cases h : y ∈ l
    · rw [if_pos h]
      simp only [List.mem_cons]
      have hxy : x = y → x ∈ l := fun hh => hh ▸ h
      tauto
    · rw [if_neg h]
      simp only [List.mem_append, List.mem_singleton, List.mem_cons]
      tauto

theorem nodup_foldl_setAdd :
    ∀ (xs l : List String), l.Nodup → (xs.foldl setAdd l).Nodup
  | [], _, hl => hl
  | y :: xs, l, hl => by
    rw [List.foldl_cons]
    refine nodup_foldl_setAdd xs _ ?_
    unfold setAdd
    by_cases h : y ∈ l
    · simpa [h] using hl
    · simp [h, List.nodup_append, hl]

theorem lexLE_total : ∀ a b : List Char, lexLE a b = true ∨ lexLE b a = true
  | [], _ => Or.inl rfl
  | _ :: _, [] => Or.inr rfl
  | a :: as, b :: bs => by
    unfold lexLE
    by_cases h : a = b
    · subst h
      simpa using lexLE_total as bs
    · rcases lt_or_gt_of_ne h with hlt | hgt
      · left; simp [h, hlt]
      · right; simp [Ne.symm h, hgt]

theorem lexLE_antisymm : ∀ a b : List Char, lexLE a b = true → lexLE b a = true → a = b
  | [], [], _, _ => rfl
  | [], _ :: _, _, h2 => by simp [lexLE] at h2
  | _ :: _, [], h1, _ => by simp [lexLE] at h1
  | a :: as, b :: bs, h1, h2 => by
    unfold lexLE at h1 h2
    by_cases h : a = b
    · subst h
      simp only [if_pos rfl] at h1 h2
      rw [lexLE_antisymm as bs h1 h2]
    · exfalso
      rw [if_neg h] at h1
      rw [if_neg (Ne.symm h)] at h2
      exact absurd (of_decide_eq_true h2) (not_lt_of_lt (of_decide_eq_true h1))

theorem lexLE_trans :
    ∀ a b c : List Char, lexLE a b = true → lexLE b c = true → lexLE a c = true
  | [], _, _, _, _ => rfl
  | _ :: _, [], _, h1, _ => by simp [lexLE] at h1
  | _ :: _, _ :: _, [], _, h2 => by simp [lexLE] at h2
  | a :: as, b :: bs, c :: cs, h1, h2 => by
    unfold lexLE at h1 h2 ⊢
    by_cases hab : a = b <;> by_cases hbc : b = c
    · subst hab; subst hbc
      simp only [if_pos rfl] at h1 h2 ⊢
      exact lexLE_trans as bs cs h1 h2
    · subst hab
      rw [if_neg hbc] at h2 ⊢
      exact h2
    · subst hbc
      rw [if_neg hab] at h1 ⊢
      exact h1
    · rw [if_neg hab] at h1
      rw [if_neg hbc] at h2
      have hac : a < c := lt_trans (of_decide_eq_true h1) (of_decide_eq_true h2)
      rw [if_neg (ne_of_lt hac)]
      exact decide_eq_true hac

instance : IsTotal String StrLE := ⟨fun a b => lexLE_total a.data b.data⟩

instance : IsTrans String StrLE := ⟨fun a b c => lexLE_trans a.data b.data c.data⟩

instance : IsAntisymm String StrLE :=
  ⟨fun a b h1 h2 => by
    cases a with
    | mk da =>
      cases b with
      | mk db => exact congrArg String.mk (lexLE_antisymm da db h1 h2)⟩

theorem sortStrings_eq_of_perm {l l2 : List String} (h : l.Perm l2) :
    sortStrings l = sortStrings l2 :=
  List.eq_of_perm_of_sorted
    ((List.perm_insertionSort _ l).trans (h.trans (List.perm_insertionSort _ l2).symm))
    (List.sorted_insertionSort _ l) (List.sorted_insertionSort _ l2)

theorem sortDesc_eq_of_perm {l l2 : List ℤ} (h : l.Perm l2) : sortDesc l = sortDesc l2 :=
  List.eq_of_perm_of_sorted
    ((List.perm_insertionSort _ l).trans (h.trans (List.perm_insertionSort _ l2).symm))
    (List.sorted_insertionSort _ l) (List.sorted_insertionSort _ l2)

theorem partialSum_cons (x : ℤ) (xs : List ℤ) (k : ℕ) :
    partialSum (x :: xs) (k + 1) = x + partialSum xs k := by
  simp [partialSum]

theorem n50Go_spec (tb : ℤ) :
    ∀ (s : List ℤ) (cum : ℤ), s ≠ [] → tb ≤ 2 * (cum + s.sum) →
      ∃ i, ∃ hi : i < s.length,
        (∀ j, j < i → 2 * (cum + partialSum s (j + 1)) < tb) ∧
          tb ≤ 2 * (cum + partialSum s (i + 1)) ∧
          n50Go tb cum s = s.get ⟨i, hi⟩
  | [], _, hne, _ => absurd rfl hne
  | x :: xs, cum, _, hcross => by
    by_cases hx : tb ≤ 2 * (cum + x)
    · refine ⟨0, by simp, ?_, ?_, ?_⟩
      · intro j hj
        omega
      · simpa [partialSum] using hx
      · simp [n50Go, hx]
    · have hxs : xs ≠ [] := by
        intro hnil
        rw [hnil] at hcross
        simp at hcross
        omega
      have hpre : tb ≤ 2 * (cum + x + xs.sum) := by
        rw [List.sum_cons] at hcross
        omega
      obtain ⟨i, hi, hlt, hge, heq⟩ := n50Go_spec tb xs (cum + x) hxs hpre
      refine ⟨i + 1, Nat.succ_lt_succ hi, ?_, ?_, ?_⟩
      · intro j hj
        cases j with
        | zero =>
          rw [partialSum_cons]
          have h0 : partialSum xs 0 = 0 := rfl
          omega
        | succ k =>
          rw [partialSum_cons]
          have := hlt k (by omega)
          omega
      · rw [partialSum_cons]
        have := hge
        omega
      · rw [show n50Go tb cum (x :: xs) = n50Go tb (cum + x) xs from by simp [n50Go, hx], heq]
        rfl

theorem sumGE_anti (l : List ℤ) (T T2 : ℤ) (h0 : 0 ≤ T) (hT : T ≤ T2) :
    sumGE l T2 ≤ sumGE l T := by
  induction l with
  | nil => simp [sumGE]
  | cons x xs ih =>
    by_cases h2 : T2 ≤ x
    · have h1 : T ≤ x := le_trans hT h2
      simp only [sumGE, List.filter_cons, decide_eq_true_eq, if_pos h1, if_pos h2,
        List.sum_cons]
      exact add_le_add_left ih x
    · by_cases h1 : T ≤ x
      · simp only [sumGE, List.filter_cons, decide_eq_true_eq, if_pos h1, if_neg h2,
          List.sum_cons]
        have hx0 : 0 ≤ x := le_trans h0 h1
        calc sumGE xs T2 ≤ sumGE xs T := ih
          _ ≤ x + sumGE xs T := by omega
      · simp only [sumGE, List.filter_cons, decide_eq_true_eq, if_neg h1, if_neg h2]
        exact ih

theorem countGE_anti (l : List ℤ) (T T2 : ℤ) (hT : T ≤ T2) :
    countGE l T2 ≤ countGE l T :=
  List.Sublist.length_le
    (List.monotone_filter_right l
      (fun _ ha => decide_eq_true (le_trans hT (of_decide_eq_true ha))))

theorem countQ_anti (rows : List RnaRow) (T T2 : ℚ) (hT : T ≤ T2) :
    countQ rows T2 ≤ countQ rows T :=
  List.Sublist.length_le
    (List.monotone_filter_right rows
      (fun _ ha => decide_eq_true (le_trans hT (of_decide_eq_true ha))))

theorem contrib_flatten (idx : ℕ) :
    ∀ G : List (List Row),
      ((G.flatten.map (rowLengthContrib idx)).flatten) =
        ((G.map (fun rows => ((rows.map (rowLengthContrib idx)).flatten))).flatten)
  | [] => rfl
  | g :: G => by
    simp only [List.flatten_cons, List.map_append, List.flatten_append, List.map_cons]
    rw [contrib_flatten idx G]

/-- Two aggregated states whose length multisets agree and whose base totals
agree finalize to numerically identical results. -/
theorem finalizeAgg_numerics (st st2 : AggState)
    (hlen : st.read_lengths.Perm st2.read_lengths) (hb : st.bases = st2.bases) :
    numericsAgree (finalizeAgg st) (finalizeAgg st2) := by
  unfold finalizeAgg
  by_cases hl : st.read_lengths = []
  · have hl2 : st2.read_lengths = [] := by
      rw [hl] at hlen
      exact hlen.symm.eq_nil
    rw [if_pos hl, if_pos hl2]
    trivial
  · have hl2 : st2.read_lengths ≠ [] := fun hnil => hl (hlen.trans (hnil ▸ List.Perm.refl _)).eq_nil
    rw [if_neg hl, if_neg hl2]
    have hs : sortDesc st.read_lengths = sortDesc st2.read_lengths := sortDesc_eq_of_perm hlen
    exact ⟨by rw [hs, hb], hb, by rw [hs], by rw [hs], by rw [hs], by rw [hs], by rw [hs],
      by rw [hs]⟩

/-- The combined length list of a batch of files sharing one header is,
up to permutation, the length list of the single stream holding any
reordering of all their rows. -/
theorem fileLengths_common_header (hdr : List String) (name : String)
    (files : List InputFile) (hhead : ∀ f ∈ files, f.header = hdr) (rows : List Row)
    (hperm : rows.Perm ((files.map InputFile.rows).flatten)) :
    ((files.map fileLengths).flatten).Perm (fileLengths ⟨name, hdr, rows⟩) := by
  cases hidx : pyIndex "sequence_length_template" hdr with
  | none =>
    have h1 : files.map fileLengths = files.map (fun _ => ([] : List ℤ)) :=
      List.map_congr_left (fun f hf => by
        unfold fileLengths
        rw [hhead f hf, hidx])
    have h2 : fileLengths ⟨name, hdr, rows⟩ = [] := by
      unfold fileLengths
      rw [hidx]
    rw [h1, h2]
    simp
  | some idx =>
    have h1 : files.map fileLengths =
        (files.map InputFile.rows).map
          (fun rws => ((rws.map (rowLengthContrib idx)).flatten)) := by
      rw [List.map_map]
      exact List.map_congr_left (fun f hf => by
        unfold fileLengths
        simp only [Function.comp]
        rw [hhead f hf, hidx])
    have h2 : fileLengths ⟨name, hdr, rows⟩ = ((rows.map (rowLengthContrib idx)).flatten) := by
      unfold fileLengths
      rw [hidx]
    rw [h1, h2, ← contrib_flatten]
    exact ((hperm.map (rowLengthContrib idx)).flatten).symm

theorem splitCharsAux_no_sep (sep : Char) :
    ∀ (cs acc : List Char), (∀ c ∈ cs, c ≠ sep) →
      splitCharsAux sep cs acc = [acc.reverse ++ cs]
  | [], acc, _ => by simp [splitCharsAux]
  | c :: cs, acc, h => by
    unfold splitCharsAux
    rw [if_neg (h c (List.mem_cons_self c cs))]
    rw [splitCharsAux_no_sep sep cs (c :: acc) (fun d hd => h d (List.mem_cons_of_mem c hd))]
    simp

theorem pySplit_no_comma (field : String) (h : ',' ∉ field.data) :
    pySplit ',' field = [field] := by
  unfold pySplit
  rw [splitCharsAux_no_sep ',' field.data [] (fun c hc hceq => h (hceq ▸ hc))]
  cases field with
  | mk data => simp

theorem process_single_file_some {f : InputFile} {r : V3Result}
    (h : process_single_file f = some r) :
    ∃ s : List ℤ,
      r.read_N50 = n50Go r.totalBases 0 s ∧
        r.sum20kb = sumGE s 20000 ∧ r.sum40kb = sumGE s 40000 ∧ r.sum60kb = sumGE s 60000 ∧
        r.sum80kb = sumGE s 80000 ∧ r.sum100kb = sumGE s 100000 ∧
        r.whales = countGE s 1000000 := by
  unfold process_single_file at h
  cases hidx : pyIndex "sequence_length_template" f.header with
  | none =>
    rw [hidx] at h
    exact absurd h (by simp)
  | some idx =>
    simp only [hidx] at h
    unfold finalizeSingle at h
    by_cases hl : (f.rows.foldl (singleStep f.header idx) ⟨[], 0, none⟩).read_lengths = []
    · rw [if_pos hl] at h
      exact absurd h (by simp)
    · rw [if_neg hl] at h
      refine ⟨sortDesc (f.rows.foldl (singleStep f.header idx) ⟨[], 0, none⟩).read_lengths, ?_⟩
      have := (Option.some.inj h).symm
      subst this
      exact ⟨rfl, rfl, rfl, rfl, rfl, rfl, rfl⟩

theorem process_rna_file_ok {name : String} {df? : Option RnaDf} {r : RnaResult}
    (h : process_rna_file name df? = .ok r) :
    ∃ rows : List RnaRow,
      r.count_q5 = countQ rows 5 ∧ r.count_q10 = countQ rows 10 ∧
        r.count_q15 = countQ rows 15 ∧ r.count_q20 = countQ rows 20 ∧
        r.count_q25 = countQ rows 25 := by
  unfold process_rna_file at h
  cases df? with
  | none => cases h
  | some df =>
    cases hq : df.hasQscore with
    | false => simp [hq] at h
    | true =>
      cases hlen : df.hasLength with
      | false => simp [hq, hlen] at h
      | true =>
        simp only [hq, hlen, Bool.not_true, Bool.false_eq_true, if_false] at h
        have := (RnaOutcome.ok.inj h).symm
        subst this
        exact ⟨df.rows, rfl, rfl, rfl, rfl, rfl⟩

/-- C2: for every non-empty multiset of accepted (non-negative) read
lengths, the N50 walk over the descending sort returns the value at the
first position where twice the running sum reaches the total base count
(`cumulative >= totalBases / 2`); in particular the code maps four reads of
length 100 to N50 = 100, and reads `[1000, 500, 300, 200]` to N50 = 1000. -/
theorem C2_n50_first_crossing :
    (∀ l : List ℤ, l ≠ [] → (∀ x ∈ l, 0 ≤ x) →
        ∃ i, ∃ hi : i < (sortDesc l).length,
          (∀ j, j < i → 2 * partialSum (sortDesc l) (j + 1) < l.sum) ∧
            l.sum ≤ 2 * partialSum (sortDesc l) (i + 1) ∧
            n50Go l.sum 0 (sortDesc l) = (sortDesc l).get ⟨i, hi⟩) ∧
      (process_single_file ⟨"reads", ["sequence_length_template"],
          [["100"], ["100"], ["100"], ["100"]]⟩).map V3Result.read_N50 = some 100 ∧
      (process_single_file ⟨"reads", ["sequence_length_template"],
          [["1000"], ["500"], ["300"], ["200"]]⟩).map V3Result.read_N50 = some 1000 := by
  refine ⟨?_, by decide, by decide⟩
  intro l hne hnn
  have hperm : (sortDesc l).Perm l := List.perm_insertionSort _ l
  have hsne : sortDesc l ≠ [] := by
    intro hnil
    apply hne
    have hlen := hperm.length_eq
    rw [hnil] at hlen
    exact List.eq_nil_of_length_eq_zero hlen.symm
  have hsum : (sortDesc l).sum = l.sum := hperm.sum_eq
  have hnn2 : 0 ≤ l.sum := List.sum_nonneg hnn
  obtain ⟨i, hi, hlt, hge, heq⟩ := n50Go_spec l.sum (sortDesc l) 0 hsne (by rw [hsum]; omega)
  refine ⟨i, hi, ?_, ?_, heq⟩
  · intro j hj
    have := hlt j hj
    omega
  · have := hge
    omega

theorem C2_witness :
    ([5, 3] : List ℤ) ≠ [] ∧
      ∃ i, ∃ hi : i < (sortDesc [5, 3]).length,
        (∀ j, j < i → 2 * partialSum (sortDesc [5, 3]) (j + 1) < ([5, 3] : List ℤ).sum) ∧
          ([5, 3] : List ℤ).sum ≤ 2 * partialSum (sortDesc [5, 3]) (i + 1) ∧
          n50Go ([5, 3] : List ℤ).sum 0 (sortDesc [5, 3]) = (sortDesc [5, 3]).get ⟨i, hi⟩ :=
  ⟨by decide, C2_n50_first_crossing.1 [5, 3] (by decide) (by decide)⟩

/-- C8: bucket values are monotonically non-increasing in the cutoff — for
the length-bucket variant both the gated base sums (for non-negative
cutoffs, as all the script's cutoffs are) and the gated counts, and for the
quality-bin variant the quality counts; instantiated to the actual outputs
of `process_single_file` and `process_rna_file`. -/
theorem C8_bucket_monotone :
    (∀ (l : List ℤ) (T T2 : ℤ), 0 ≤ T → T ≤ T2 → sumGE l T2 ≤ sumGE l T) ∧
      (∀ (l : List ℤ) (T T2 : ℤ), T ≤ T2 → countGE l T2 ≤ countGE l T) ∧
      (∀ (rows : List RnaRow) (T T2 : ℚ), T ≤ T2 → countQ rows T2 ≤ countQ rows T) ∧
      (∀ (f : InputFile) (r : V3Result), process_single_file f = some r →
        r.sum40kb ≤ r.sum20kb ∧ r.sum60kb ≤ r.sum40kb ∧ r.sum80kb ≤ r.sum60kb ∧
          r.sum100kb ≤ r.sum80kb) ∧
      (∀ (name : String) (df? : Option RnaDf) (r : RnaResult),
        process_rna_file name df? = .ok r →
          r.count_q10 ≤ r.count_q5 ∧ r.count_q15 ≤ r.count_q10 ∧
            r.count_q20 ≤ r.count_q15 ∧ r.count_q25 ≤ r.count_q20) := by
  refine ⟨sumGE_anti, countGE_anti, countQ_anti, ?_, ?_⟩
  · intro f r h
    obtain ⟨s, _, h20, h40, h60, h80, h100, _⟩ := process_single_file_some h
    rw [h20, h40, h60, h80, h100]
    exact ⟨sumGE_anti s 20000 40000 (by norm_num) (by norm_num),
      sumGE_anti s 40000 60000 (by norm_num) (by norm_num),
      sumGE_anti s 60000 80000 (by norm_num) (by norm_num),
      sumGE_anti s 80000 100000 (by norm_num) (by norm_num)⟩
  · intro name df? r h
    obtain ⟨rows, h5, h10, h15, h20, h25⟩ := process_rna_file_ok h
    rw [h5, h10, h15, h20, h25]
    exact ⟨countQ_anti rows 5 10 (by norm_num), countQ_anti rows 10 15 (by norm_num),
      countQ_anti rows 15 20 (by norm_num), countQ_anti rows 20 25 (by norm_num)⟩

theorem C8_witness :
    sumGE [25000, 50000] 40000 ≤ sumGE [25000, 50000] 20000 :=
  C8_bucket_monotone.1 [25000, 50000] 20000 40000 (by decide) (by decide)

/-- C9: `transform_file_field` with shortening enabled is the per-component
map that splits each comma-separated component on `/` and takes segment 1
when there are at least two segments; with any other option it is the
identity; `appendSuffix` appends `"_" ++ suffix` for a nonempty suffix;
with the documented concrete behaviours on `"runA/sample1/raw.txt"`. -/
theorem C9_label_transform :
    (∀ field : String, transform_file_field field "yes" =
        joinComma ((pySplit ',' field).map shortenComponent)) ∧
      (∀ field opt : String, opt ≠ "yes" → transform_file_field field opt = field) ∧
      (∀ field s : String, s ≠ "" → appendSuffix field s = field ++ "_" ++ s) ∧
      transform_file_field "runA/sample1/raw.txt" "yes" = "sample1" ∧
      appendSuffix (transform_file_field "runA/sample1/raw.txt" "yes") "fast" = "sample1_fast" ∧
      appendSuffix (transform_file_field "runA/sample1/raw.txt" "no") "" =
        "runA/sample1/raw.txt" := by
  refine ⟨?_, ?_, ?_, by decide, by decide, by decide⟩
  · intro field
    unfold transform_file_field
    rw [if_neg (fun hcon => hcon rfl)]
    by_cases hc : field.data.contains ',' = true
    · rw [if_pos hc]
    · rw [if_neg hc, pySplit_no_comma field (fun hmem => hc (by
        rw [List.contains_iff_exists_mem_beq]
        exact ⟨',', hmem, by simp⟩))]
      rfl
  · intro field opt hopt
    unfold transform_file_field
    rw [if_pos hopt]
  · intro field s hs
    unfold appendSuffix
    rw [if_neg hs]

theorem C9_witness : transform_file_field "a/b/c" "no" = "a/b/c" :=
  C9_label_transform.2.1 "a/b/c" "no" (by decide)

/-- C10: in the length-bucket variant a row that reaches the required
length column has its instrument identifier extracted BEFORE the length
value is parsed, so a row whose length field is not an integer still
contributes its identifier (to the aggregated set, and as the recorded
per-file identifier when it is the first qualifying row) while contributing
nothing to the lengths or base total. -/
theorem C10_id_extracted_before_length (header : List String) (idx : ℕ)
    (st : AggState) (st2 : SingleState) (p : Row)
    (hemb : isEmbeddedHeader p = false) (hlen : idx < p.length)
    (hbad : parsePyInt (p.getD idx "") = none) :
    (aggStep header idx st p).read_lengths = st.read_lengths ∧
      (aggStep header idx st p).bases = st.bases ∧
      (extract_flowcell_id header p ≠ "" →
        (aggStep header idx st p).flowcell_ids =
          setAdd st.flowcell_ids (extract_flowcell_id header p)) ∧
      (st2.flowcell_id = none →
        (singleStep header idx st2 p).flowcell_id = some (extract_flowcell_id header p)) ∧
      (singleStep header idx st2 p).read_lengths = st2.read_lengths ∧
      (singleStep header idx st2 p).bases = st2.bases := by
  have hle : ¬ p.length ≤ idx := by omega
  unfold aggStep singleStep
  rw [if_neg (by simp [hemb]), if_neg hle, if_neg (by simp [hemb]), if_neg hle, hbad]
  by_cases hf : extract_flowcell_id header p = ""
  · exact ⟨by simp [hf], by simp [hf], fun h2 => absurd hf h2,
      fun h2 => by simp [h2],
      by cases h2 : st2.flowcell_id <;> simp [h2],
      by cases h2 : st2.flowcell_id <;> simp [h2]⟩
  · exact ⟨by simp [hf], by simp [hf], fun _ => by simp [hf],
      fun h2 => by simp [h2],
      by cases h2 : st2.flowcell_id <;> simp [h2],
      by cases h2 : st2.flowcell_id <;> simp [h2]⟩

/-- C1: aggregated processing is independent of how a row set is grouped
into files and of the ordering of rows and files: for a batch of files
sharing one header, every numeric output field of
`process_aggregated_files` (N50, total bases — hence Gb and coverage —,
every bucket sum, the very-long-read count), and the total read count,
equal those of a single stream through one accumulator holding any
reordering of all the rows. -/
theorem C1_merge_partition_independent (files : List InputFile) (hdr : List String)
    (name : String) (rows : List Row)
    (hhead : ∀ f ∈ files, f.header = hdr)
    (hperm : rows.Perm ((files.map InputFile.rows).flatten)) :
    numericsAgree (process_aggregated_files files)
        (process_aggregated_files [⟨name, hdr, rows⟩]) ∧
      (aggState files).read_lengths.length =
        (aggState [⟨name, hdr, rows⟩]).read_lengths.length := by
  have P : ((files.map fileLengths).flatten).Perm (fileLengths ⟨name, hdr, rows⟩) :=
    fileLengths_common_header hdr name files hhead rows hperm
  have hL1 : (aggState files).read_lengths = (files.map fileLengths).flatten := by
    rw [aggState_eq]
  have hL2 : (aggState [⟨name, hdr, rows⟩]).read_lengths = fileLengths ⟨name, hdr, rows⟩ := by
    rw [aggState_eq]
    simp
  have hlenperm : (aggState files).read_lengths.Perm
      (aggState [⟨name, hdr, rows⟩]).read_lengths := by
    rw [hL1, hL2]
    exact P
  have hb : (aggState files).bases = (aggState [⟨name, hdr, rows⟩]).bases := by
    rw [aggState_eq, aggState_eq]
    simpa using P.sum_eq
  exact ⟨finalizeAgg_numerics _ _ hlenperm hb, hlenperm.length_eq⟩

theorem C1_witness :
    numericsAgree
        (process_aggregated_files
          [⟨"a", ["sequence_length_template"], [["7"]]⟩,
           ⟨"b", ["sequence_length_template"], [["5"]]⟩])
        (process_aggregated_files [⟨"c", ["sequence_length_template"], [["5"], ["7"]]⟩]) ∧
      (aggState [⟨"a", ["sequence_length_template"], [["7"]]⟩,
          ⟨"b", ["sequence_length_template"], [["5"]]⟩]).read_lengths.length =
        (aggState [⟨"c", ["sequence_length_template"], [["5"], ["7"]]⟩]).read_lengths.length :=
  C1_merge_partition_independent _ ["sequence_length_template"] "c" [["5"], ["7"]]
    (by decide) (by decide)

theorem rowLengthContrib_eq_nil {idx : ℕ} {p : Row} (h : rowSkipped idx p = true) :
    rowLengthContrib idx p = [] := by
  unfold rowSkipped at h
  unfold rowLengthContrib
  by_cases h1 : isEmbeddedHeader p
  · simp [h1]
  by_cases h2 : p.length ≤ idx
  · simp [h1, h2]
  · cases hp : parsePyInt (p.getD idx "") with
    | none => simp [h1, h2, hp]
    | some n =>
      rw [hp] at h
      simp [h1, h2] at h

theorem contrib_filter (idx : ℕ) :
    ∀ rows : List Row,
      (((rows.filter (fun p => !rowSkipped idx p)).map (rowLengthContrib idx)).flatten) =
        ((rows.map (rowLengthContrib idx)).flatten)
  | [] => rfl
  | p :: rows => by
    by_cases hs : rowSkipped idx p = true
    · rw [List.filter_cons_of_neg (by simp [hs])]
      rw [contrib_filter idx rows]
      simp [rowLengthContrib_eq_nil hs]
    · rw [List.filter_cons_of_pos (by simp [Bool.not_eq_true] at hs ⊢; exact hs)]
      simp only [List.map_cons, List.flatten_cons]
      rw [contrib_filter idx rows]

/-- C5: a re-embedded header line (tokens carrying both the `filename` and
`read_id` markers), a line too short to reach the required column, and a
line whose length field is not an integer are all skipped silently: every
numeric output of `process_single_file` equals that of the same stream
with the skipped lines removed, and a skipped line contributes nothing. -/
theorem C5_skipped_rows_no_effect (f : InputFile) (idx : ℕ)
    (hidx : pyIndex "sequence_length_template" f.header = some idx) :
    numericsAgree (process_single_file f)
        (process_single_file ⟨f.name, f.header, f.rows.filter (fun p => !rowSkipped idx p)⟩) ∧
      (∀ p : Row, rowSkipped idx p = true → rowLengthContrib idx p = []) := by
  constructor
  · unfold process_single_file
    simp only [hidx]
    obtain ⟨ha1, ha2⟩ := foldl_singleStep_totals f.header idx f.rows ⟨[], 0, none⟩
    obtain ⟨hb1, hb2⟩ :=
      foldl_singleStep_totals f.header idx (f.rows.filter (fun p => !rowSkipped idx p)) ⟨[], 0, none⟩
    unfold finalizeSingle
    rw [ha1, ha2, hb1, hb2, contrib_filter]
    by_cases hl : ([] : List ℤ) ++ ((f.rows.map (rowLengthContrib idx)).flatten) = []
    · rw [if_pos hl, if_pos hl]
      trivial
    · rw [if_neg hl, if_neg hl]
      exact ⟨rfl, rfl, rfl, rfl, rfl, rfl, rfl, rfl⟩
  · exact fun p h => rowLengthContrib_eq_nil h

theorem C5_witness :
    numericsAgree
        (process_single_file ⟨"w.txt", ["sequence_length_template"],
          [["10"], ["filename", "read_id"], [], ["zz"], ["30"]]⟩)
        (process_single_file ⟨"w.txt", ["sequence_length_template"],
          ([["10"], ["filename", "read_id"], [], ["zz"], ["30"]] : List Row).filter
            (fun p => !rowSkipped 0 p)⟩) :=
  (C5_skipped_rows_no_effect ⟨"w.txt", ["sequence_length_template"],
    [["10"], ["filename", "read_id"], [], ["zz"], ["30"]]⟩ 0 (by decide)).1

theorem aggLengths_swap (fa fb : InputFile) :
    ((aggState [fa, fb]).read_lengths).Perm ((aggState [fb, fa]).read_lengths) := by
  rw [aggState_eq, aggState_eq]
  simp only [List.map_cons, List.map_nil, List.flatten_cons, List.flatten_nil, List.append_nil]
  exact List.perm_append_comm

theorem aggIds_swap (fa fb : InputFile) :
    ((aggState [fa, fb]).flowcell_ids).Perm ((aggState [fb, fa]).flowcell_ids) := by
  rw [aggState_eq, aggState_eq]
  simp only [List.map_cons, List.map_nil, List.flatten_cons, List.flatten_nil, List.append_nil]
  refine (List.perm_ext_iff_of_nodup (nodup_foldl_setAdd _ _ List.nodup_nil)
    (nodup_foldl_setAdd _ _ List.nodup_nil)).2 ?_
  intro a
  rw [mem_foldl_setAdd, mem_foldl_setAdd]
  simp only [List.mem_append, List.not_mem_nil, false_or]
  tauto

/-- C6: the aggregated path collects identifiers as a set (cross-file
duplicates collapse) and renders them comma-joined in sorted order,
independently of file processing order: swapping two files never changes
the rendered identifier field, the stored identifier list is always
duplicate-free and its rendering is sorted, and the documented two-file
scenario (one shared identifier, one unique identifier each) yields
exactly 3 distinct identifiers rendered in sorted order. -/
theorem C6_identifier_set_semantics :
    (∀ fa fb : InputFile,
        (process_aggregated_files [fa, fb]).map (fun r => r.flowcell_id) =
          (process_aggregated_files [fb, fa]).map (fun r => r.flowcell_id)) ∧
      (∀ files : List InputFile,
        (aggState files).flowcell_ids.Nodup ∧
          (sortStrings (aggState files).flowcell_ids).Sorted StrLE) ∧
      ((aggState
          [⟨"a.txt", ["filename", "sequence_length_template"], [["S_1", "100"], ["A_1", "200"]]⟩,
           ⟨"b.txt", ["filename", "sequence_length_template"],
              [["S_2", "300"], ["B_1", "400"]]⟩]).flowcell_ids.length = 3 ∧
        (process_aggregated_files
            [⟨"a.txt", ["filename", "sequence_length_template"], [["S_1", "100"], ["A_1", "200"]]⟩,
             ⟨"b.txt", ["filename", "sequence_length_template"],
                [["S_2", "300"], ["B_1", "400"]]⟩]).map (fun r => r.flowcell_id) =
          some "A,B,S") := by
  refine ⟨?_, ?_, by decide, by decide⟩
  · intro fa fb
    unfold process_aggregated_files finalizeAgg
    have hperm := aggLengths_swap fa fb
    have hids := sortStrings_eq_of_perm (aggIds_swap fa fb)
    by_cases hl : (aggState [fa, fb]).read_lengths = []
    · have hl2 : (aggState [fb, fa]).read_lengths = [] := (hl ▸ hperm).symm.eq_nil
      rw [if_pos hl, if_pos hl2]
    · have hl2 : (aggState [fb, fa]).read_lengths ≠ [] := by
        intro hnil
        exact hl (hnil ▸ hperm).eq_nil
      rw [if_neg hl, if_neg hl2]
      simp [hids]
  · intro files
    rw [aggState_eq]
    exact ⟨nodup_foldl_setAdd _ _ List.nodup_nil, List.sorted_insertionSort _ _⟩

/-- C7 counterexample: a per-file stream containing two extractable
identifiers ("X" then "Y") yields a result whose identifier field is just
"X" — only the first extraction is recorded, while the aggregated path on
the same stream collects the full set. -/
theorem C7_counterexample :
    (process_single_file ⟨"f.txt", ["filename", "sequence_length_template"],
        [["X_1", "100"], ["Y_1", "200"]]⟩).map (fun r => r.flowcell_id) = some "X" ∧
      (aggState [⟨"f.txt", ["filename", "sequence_length_template"],
          [["X_1", "100"], ["Y_1", "200"]]⟩]).flowcell_ids = ["X", "Y"] :=
  ⟨by decide, by decide⟩

/-- C7 (amended): the per-file accumulator records only the identifier
extracted from the first row that passes the embedded-header and
field-count checks — even when that extraction yields the empty string —
and ignores identifiers on all later rows; the full distinct-identifier
set is formed only by the aggregated path's per-row collection. -/
theorem C7_first_id_only (header : List String) (idx : ℕ) (rows : List Row)
    (l : List ℤ) (b : ℤ) :
    ((rows.foldl (singleStep header idx) ⟨l, b, none⟩).flowcell_id =
        (firstQualifying idx rows).map (extract_flowcell_id header)) ∧
      (∀ f : InputFile, (aggState [f]).flowcell_ids = (fileIdSeq f).foldl setAdd []) :=
  ⟨foldl_singleStep_flowcell_none header idx rows l b, fun f => by
    rw [aggState_eq]
    simp⟩

/-- C3 counterexample: the RNA per-file path, given a unit with both
required columns but zero rows, returns a result record with every numeric
field zero instead of producing no result. -/
theorem C3_counterexample :
    process_rna_file "f" (some ⟨true, true, []⟩) = .ok ⟨"f", 0, 0, 0, 0, 0, 0, 0, 0⟩ := by
  decide

/-- C3 (amended): a unit with zero valid records yields no result in the
v3 single-file path, the v3 aggregated path and the RNA aggregated path;
the RNA per-file path instead returns a record whose numeric fields are
all zero (no numeric fault occurs: no path divides by a total). -/
theorem C3_no_valid_records :
    (∀ (f : InputFile) (idx : ℕ),
        pyIndex "sequence_length_template" f.header = some idx →
        ((f.rows.map (rowLengthContrib idx)).flatten) = [] →
        process_single_file f = none) ∧
      (∀ files : List InputFile, (aggState files).read_lengths = [] →
        process_aggregated_files files = none) ∧
      (∀ (files : List (String × Option RnaDf)) (st : RnaAggState),
        files.foldlM rnaAggFile ⟨0, 0, 0, 0, 0, 0, 0, []⟩ = .ok st → st.total_reads = 0 →
        process_aggregated_rna_files files = .ok none) ∧
      (∀ (name : String) (df : RnaDf),
        df.hasQscore = true → df.hasLength = true → df.rows = [] →
        process_rna_file name (some df) = .ok ⟨name, 0, 0, 0, 0, 0, 0, 0, 0⟩) := by
  refine ⟨?_, ?_, ?_, ?_⟩
  · intro f idx hidx hnil
    unfold process_single_file
    simp only [hidx]
    unfold finalizeSingle
    rw [if_pos (by rw [(foldl_singleStep_totals f.header idx f.rows ⟨[], 0, none⟩).1, hnil]; rfl)]
  · intro files hnil
    unfold process_aggregated_files finalizeAgg
    rw [if_pos hnil]
  · intro files st hfold hzero
    unfold process_aggregated_rna_files
    rw [hfold]
    simp [hzero]
  · intro name df hq hl hrows
    unfold process_rna_file
    simp [hq, hl, hrows, countQ, sortDesc, n50Go]

theorem C3_witness : process_aggregated_files ([] : List InputFile) = none :=
  C3_no_valid_records.2.1 [] rfl

/-- C4 counterexample: in the RNA variant a file whose header lacks the
required length column raises an uncaught error that aborts the whole
directory batch (the following valid file, which alone would produce a
result, contributes nothing), and in the v3 aggregated path a file whose
header lacks the column still contributes its name to the output File
label. -/
theorem C4_counterexample :
    rnaDirResults
        [("bad", some ⟨true, false, [⟨10, 5⟩]⟩), ("good", some ⟨true, true, [⟨10, 5⟩]⟩)] =
      .error "sequence_length_template" ∧
      rnaDirResults [("good", some ⟨true, true, [⟨10, 5⟩]⟩)] =
        .ok [⟨"good", 5, 5, 1, 1, 1, 0, 0, 0⟩] ∧
      (process_aggregated_files
          [⟨"bad.txt", ["x"], []⟩,
           ⟨"good.txt", ["sequence_length_template"], [["7"]]⟩]).map (fun r => r.file) =
        some "bad.txt,good.txt" :=
  ⟨rfl, rfl, by decide⟩

/-- C4 (amended): in the v3 variant a unit whose header lacks
`sequence_length_template` contributes nothing to any numeric field or to
the identifier set and the remaining units are still processed — though in
aggregated mode its name still appears in the output File label; in the
RNA variant a missing required column raises an uncaught error that aborts
the whole batch. -/
theorem C4_missing_column :
    (∀ f : InputFile, pyIndex "sequence_length_template" f.header = none →
        process_single_file f = none) ∧
      (∀ (pre post : List InputFile) (fbad : InputFile),
        pyIndex "sequence_length_template" fbad.header = none →
        (aggState (pre ++ fbad :: post)).read_lengths = (aggState (pre ++ post)).read_lengths ∧
          (aggState (pre ++ fbad :: post)).bases = (aggState (pre ++ post)).bases ∧
          (aggState (pre ++ fbad :: post)).flowcell_ids =
            (aggState (pre ++ post)).flowcell_ids ∧
          (aggState (pre ++ fbad :: post)).file_names =
            pre.map InputFile.name ++ fbad.name :: post.map InputFile.name) ∧
      (∀ (name : String) (df : RnaDf) (rest : List (String × Option RnaDf)) (c : String),
        process_rna_file name (some df) = .keyError c →
        rnaDirResults ((name, some df) :: rest) = .error c) := by
  refine ⟨?_, ?_, ?_⟩
  · intro f hidx
    unfold process_single_file
    rw [hidx]
  · intro pre post fbad hbad
    have hlen : fileLengths fbad = [] := by
      unfold fileLengths
      rw [hbad]
    have hids : fileIdSeq fbad = [] := by
      unfold fileIdSeq
      rw [hbad]
    rw [aggState_eq, aggState_eq]
    refine ⟨?_, ?_, ?_, ?_⟩ <;> simp [hlen, hids]
  · intro name df rest c h
    unfold rnaDirResults
    rw [h]

theorem C4_witness : process_single_file ⟨"nocol.txt", ["foo"], [["1"]]⟩ = none :=
  C4_missing_column.1 ⟨"nocol.txt", ["foo"], [["1"]]⟩ (by decide)

theorem C10_witness :
    (aggStep ["filename", "sequence_length_template"] 1
          ⟨[], 0, [], []⟩ ["FC2_a", "xyz"]).read_lengths = [] ∧
      (aggStep ["filename", "sequence_length_template"] 1
          ⟨[], 0, [], []⟩ ["FC2_a", "xyz"]).flowcell_ids = setAdd [] "FC2" ∧
      (singleStep ["filename", "sequence_length_template"] 1
          ⟨[], 0, none⟩ ["FC2_a", "xyz"]).flowcell_id = some "FC2" :=
  ⟨(C10_id_extracted_before_length _ 1 ⟨[], 0, [], []⟩ ⟨[], 0, none⟩ _
      (by decide) (by decide) (by decide)).1,
    (C10_id_extracted_before_length _ 1 ⟨[], 0, [], []⟩ ⟨[], 0, none⟩ _
        (by decide) (by decide) (by decide)).2.2.1 (by decide),
    (C10_id_extracted_before_length _ 1 ⟨[], 0, [], []⟩ ⟨[], 0, none⟩ _
        (by decide) (by decide) (by decide)).2.2.2.1 rfl⟩

end OntStats
